import Mathlib

/-!
Verification of the cloudchef-print-server core against its specification.

The definitions below are shallow embeddings of the TypeScript/JavaScript
sources of the repository:

* `JsMap` models the semantics of a JavaScript `Map` backed by an
  insertion-ordered association list (`set` replaces in place, `delete`
  removes, iteration follows insertion order).
* `AgentManager` embeds `src/services/AgentManager.ts` (and its compiled
  `dist` variant, which differs in `register`).
* `PrintQueueManager` embeds the compiled `dist/services/PrintQueueManager.js`.
* `SocketRateLimiter` embeds `src/middleware/rateLimit.ts`.
* `verifyAgentToken` embeds `src/middleware/auth.ts`, with the external
  Supabase credential store modelled as a list of rows and an explicit
  flag recording whether the store was consulted.
* The socket event handlers (`register_agent`, `register`, `print-label`,
  connection-time auth) embed the compiled `dist/socket/handlers.js`.

Dates (`new Date()`, `Date.now()`) are modelled as natural-number
millisecond timestamps passed in explicitly; UUID generation is modelled
as an explicitly passed fresh identifier.
-/

/-! ### JavaScript `Map` semantics over an association list -/

/-- `Map.get`: first binding of the key, if any. -/
def jsGet {β : Type} (l : List (String × β)) (k : String) : Option β :=
  (l.find? (fun p => p.1 = k)).map (fun p => p.2)

/-- `Map.set`: replace the binding in place if the key is present,
otherwise append a new binding (JS maps keep insertion order). -/
def jsSet {β : Type} (l : List (String × β)) (k : String) (v : β) :
    List (String × β) :=
  if l.any (fun p => p.1 = k) then
    l.map (fun p => if p.1 = k then (k, v) else p)
  else
    l ++ [(k, v)]

/-- `Map.delete`. -/
def jsDelete {β : Type} (l : List (String × β)) (k : String) :
    List (String × β) :=
  l.filter (fun p => p.1 ≠ k)

/-- JS truthiness of an optional string (`undefined` and `''` are falsy). -/
def strTruthy (s : Option String) : Bool :=
  match s with
  | none => false
  | some s => s ≠ ""

/-- JS `a || b` on optional strings. -/
def jsOr (a b : Option String) : Option String :=
  if strTruthy a then a else b

/-- JS `String.prototype.toUpperCase`, character by character. -/
def jsToUpper (s : String) : String :=
  String.mk (s.data.map Char.toUpper)

/-! ### Data model (src/types/index.ts) -/

inductive PrinterStatus
  | ready
  | busy
  | error
deriving DecidableEq

/-- `PrinterInfo` from `src/types/index.ts` (the fields the core reads). -/
structure PrinterInfo where
  name : String
  status : PrinterStatus
  model : Option String
deriving DecidableEq

/-- `ConnectedAgent` from `src/types/index.ts`; `Date` fields are
millisecond timestamps. -/
structure ConnectedAgent where
  id : String
  socketId : String
  restaurantId : Option String
  userId : Option String
  code : String
  printerInfo : Option PrinterInfo
  connectedAt : Nat
  lastSeen : Nat
  version : String
  os : Option String
  ip : Option String
deriving DecidableEq

inductive PrintStatus
  | pending
  | printing
  | success
  | failed
deriving DecidableEq

/-- `PrintCommand` from `src/types/index.ts`; the opaque label payload is
modelled as a `String`. -/
structure PrintCommand where
  id : String
  restaurantId : String
  userId : String
  agentId : String
  labelData : String
  status : PrintStatus
  createdAt : Nat
  completedAt : Option Nat
  error : Option String
deriving DecidableEq

/-! ### Connection Registry (`AgentManager`) -/

/-- The `AgentManager`'s private `agents : Map<string, ConnectedAgent>`. -/
structure AgentManager where
  agents : List (String × ConnectedAgent)
deriving DecidableEq

namespace AgentManager

def empty : AgentManager := ⟨[]⟩

/-- `register` as written in `src/services/AgentManager.ts`: builds the
record (storing `code` verbatim) and `Map.set`s it under `agentId`. -/
def register (m : AgentManager) (agentId socketId : String)
    (restaurantId userId : Option String) (code : String)
    (printerInfo : Option PrinterInfo) (version : String)
    (ip : Option String) (now : Nat) : ConnectedAgent × AgentManager :=
  let agent : ConnectedAgent :=
    { id := agentId
      socketId := socketId
      restaurantId := restaurantId
      userId := userId
      code := code
      printerInfo := printerInfo
      connectedAt := now
      lastSeen := now
      version := version
      os := printerInfo.map (fun p => p.model) |>.join
      ip := ip }
  (agent, ⟨jsSet m.agents agentId agent⟩)

/-- `register` as compiled in `dist/services/AgentManager.js`: identical
except that the stored pairing code is `(code || '').toUpperCase()`
(modelled by `jsToUpper`). -/
def registerDist (m : AgentManager) (agentId socketId : String)
    (restaurantId userId : Option String) (code : String)
    (printerInfo : Option PrinterInfo) (version : String)
    (ip : Option String) (now : Nat) : ConnectedAgent × AgentManager :=
  let agent : ConnectedAgent :=
    { id := agentId
      socketId := socketId
      restaurantId := restaurantId
      userId := userId
      code := jsToUpper (if code = "" then "" else code)
      printerInfo := printerInfo
      connectedAt := now
      lastSeen := now
      version := version
      os := printerInfo.map (fun p => p.model) |>.join
      ip := ip }
  (agent, ⟨jsSet m.agents agentId agent⟩)

/-- `unregisterBySocketId`: delete the first record whose `socketId`
matches, then return. -/
def unregisterBySocketId (m : AgentManager) (socketId : String) :
    AgentManager :=
  match m.agents.find? (fun p => p.2.socketId = socketId) with
  | some p => ⟨jsDelete m.agents p.1⟩
  | none => m

/-- `updateLastSeen`. -/
def updateLastSeen (m : AgentManager) (agentId : String) (now : Nat) :
    AgentManager :=
  ⟨m.agents.map (fun p =>
    if p.1 = agentId then (p.1, { p.2 with lastSeen := now }) else p)⟩

/-- `updatePrinterInfo`. -/
def updatePrinterInfo (m : AgentManager) (agentId : String)
    (printerInfo : PrinterInfo) (now : Nat) : AgentManager :=
  ⟨m.agents.map (fun p =>
    if p.1 = agentId then
      (p.1, { p.2 with printerInfo := some printerInfo, lastSeen := now })
    else p)⟩

/-- `getAgent`. -/
def getAgent (m : AgentManager) (agentId : String) : Option ConnectedAgent :=
  jsGet m.agents agentId

/-- `getAgentBySocketId`. -/
def getAgentBySocketId (m : AgentManager) (socketId : String) :
    Option ConnectedAgent :=
  (m.agents.find? (fun p => p.2.socketId = socketId)).map (fun p => p.2)

/-- `getAllAgents`. -/
def getAllAgents (m : AgentManager) : List ConnectedAgent :=
  m.agents.map (fun p => p.2)

/-- `getAgentsByRestaurant`. -/
def getAgentsByRestaurant (m : AgentManager) (restaurantId : String) :
    List ConnectedAgent :=
  (m.agents.map (fun p => p.2)).filter
    (fun a => a.restaurantId = some restaurantId)

/-- `isOnline`. -/
def isOnline (m : AgentManager) (agentId : String) : Bool :=
  m.agents.any (fun p => p.1 = agentId)

/-- The 5-minute staleness threshold of `AgentManager.cleanup`. -/
def staleThreshold : Nat := 5 * 60 * 1000

/-- The body of `cleanup`'s `for` loop: walk the entries in insertion
order, deleting each one whose last-seen lies strictly more than
`staleThreshold` before `now`. -/
def sweepLoop (now : Nat) : List (String × ConnectedAgent) →
    List (String × ConnectedAgent)
  | [] => []
  | p :: rest =>
      if now - p.2.lastSeen > staleThreshold then sweepLoop now rest
      else p :: sweepLoop now rest

/-- `cleanup` (the periodic stale sweep). -/
def cleanup (m : AgentManager) (now : Nat) : AgentManager :=
  ⟨sweepLoop now m.agents⟩

end AgentManager

/-! ### Auth Gate (`src/middleware/auth.ts`) -/

/-- A row of the external `agent_tokens` credential store (Supabase). -/
structure TokenRow where
  id : String
  token : String
  restaurant_code : String
  is_active : Bool
deriving DecidableEq

/-- The result shape of `verifyAgentToken`. -/
structure VerifyResult where
  valid : Bool
  restaurantCode : Option String
  tokenId : Option String
  error : Option String
deriving DecidableEq

def isUpperAlnum (c : Char) : Bool :=
  ('A' ≤ c && c ≤ 'Z') || ('0' ≤ c && c ≤ '9')

def isLowerHex (c : Char) : Bool :=
  ('a' ≤ c && c ≤ 'f') || ('0' ≤ c && c ≤ '9')

/-- The regex `^agent_([A-Z0-9]{8})_([a-f0-9]{32})$` of
`verifyAgentToken`, as a decidable match on the character list. -/
def agentKeyMatch (token : String) : Bool :=
  let cs := token.toList
  cs.length = 47 && cs.take 6 = "agent_".toList
    && ((cs.drop 6).take 8).all isUpperAlnum
    && (cs.drop 14).take 1 = ['_']
    && (cs.drop 15).all isLowerHex

/-- The typed format error returned when the regex fails. -/
def formatErrorMsg : String :=
  "Неверный формат токена агента. Ожидается формат: agent_XXXXXXXX_<32 hex chars>"

/-- The typed error returned when the store lookup fails. -/
def revokedErrorMsg : String :=
  "Токен агента недействителен или был отозван. Создайте новый токен в веб-приложении."

/-- `verifyAgentToken` from `src/middleware/auth.ts`.  Phase 1 is the
regex check; phase 2 queries the store by exact token and active flag
(Supabase `.single()` succeeds only when exactly one row matches).  The
second component records whether the external store was consulted. -/
def verifyAgentToken (store : List TokenRow) (token : String) :
    VerifyResult × Bool :=
  if agentKeyMatch token then
    match store.filter (fun r => r.token = token && r.is_active) with
    | [row] =>
        (⟨true, some row.restaurant_code, some row.id, none⟩, true)
    | _ =>
        (⟨false, none, none, some revokedErrorMsg⟩, true)
  else
    (⟨false, none, none, some formatErrorMsg⟩, false)

/-! ### Theorems for claims C9 and C7 -/

/-- The stale sweep's entry loop is extensionally a filter keeping the
records seen within the threshold. -/
theorem sweepLoop_eq_filter (now : Nat) :
    ∀ l, AgentManager.sweepLoop now l =
      l.filter (fun p => decide (now - p.2.lastSeen ≤ AgentManager.staleThreshold))
  | [] => rfl
  | p :: rest => by
      unfold AgentManager.sweepLoop
      rw [List.filter_cons]
      by_cases h : now - p.2.lastSeen > AgentManager.staleThreshold
      · rw [if_pos h]
        have h2 : ¬ (now - p.2.lastSeen ≤ AgentManager.staleThreshold) :=
          not_le.mpr h
        simp [h2, sweepLoop_eq_filter now rest]
      · rw [if_neg h]
        have h2 : now - p.2.lastSeen ≤ AgentManager.staleThreshold :=
          not_lt.mp h
        simp [h2, sweepLoop_eq_filter now rest]

/-- **C9.** A single run of the stale sweep (`AgentManager.cleanup`)
removes exactly those registry records whose last-seen time lies strictly
more than the 5-minute staleness threshold before `now`, and leaves every
record whose last-seen is within the threshold present and unchanged.
(The sweep never consults the transport connection, so the statement
holds for every registry state however obtained.) -/
theorem cleanup_removes_exactly_stale (m : AgentManager) (now : Nat)
    (p : String × ConnectedAgent) :
    p ∈ (AgentManager.cleanup m now).agents ↔
      p ∈ m.agents ∧ ¬ (p.2.lastSeen + AgentManager.staleThreshold < now) := by
  unfold AgentManager.cleanup
  rw [sweepLoop_eq_filter]
  rw [List.mem_filter]
  have harith : (now - p.2.lastSeen ≤ AgentManager.staleThreshold) ↔
      ¬ (p.2.lastSeen + AgentManager.staleThreshold < now) := by
    unfold AgentManager.staleThreshold
    omega
  simp [harith]

/-- **C7.** `verifyAgentToken` consults the external credential store only
for tokens matching `^agent_[A-Z0-9]{8}_[a-f0-9]{32}$`: a token failing
the regex is rejected with the typed format error and the store is not
consulted (lookup flag `false`), whatever the store contains; and
whenever the lookup flag is set, the token matched the regex. -/
theorem verifyAgentToken_format_gate (store : List TokenRow) (token : String)
    (h : agentKeyMatch token = false) :
    verifyAgentToken store token =
      (⟨false, none, none, some formatErrorMsg⟩, false) := by
  unfold verifyAgentToken
  simp [h]

/-- Witness for C7: the lowercase-code token
`agent_ab12cd34_deadbeefdeadbeefdeadbeefdeadbeef` fails the regex and is
rejected with the format error without any lookup, even when the store
holds an active row for that exact token. -/
theorem verifyAgentToken_format_gate_witness :
    agentKeyMatch "agent_ab12cd34_deadbeefdeadbeefdeadbeefdeadbeef" = false ∧
    verifyAgentToken
        [⟨"tok-1", "agent_ab12cd34_deadbeefdeadbeefdeadbeefdeadbeef", "AB12CD34", true⟩]
        "agent_ab12cd34_deadbeefdeadbeefdeadbeefdeadbeef" =
      (⟨false, none, none, some formatErrorMsg⟩, false) :=
  ⟨by decide,
   verifyAgentToken_format_gate
     [⟨"tok-1", "agent_ab12cd34_deadbeefdeadbeefdeadbeefdeadbeef", "AB12CD34", true⟩]
     "agent_ab12cd34_deadbeefdeadbeefdeadbeefdeadbeef" (by decide)⟩

/-! ### Socket rate limiter (`src/middleware/rateLimit.ts`) -/

/-- The `SocketRateLimiter` class state: `requests : Map<string, number[]>`
plus the constructor parameters. -/
structure SocketRateLimiter where
  requests : List (String × List Nat)
  windowMs : Nat
  maxRequests : Nat
deriving DecidableEq

namespace SocketRateLimiter

/-- `new SocketRateLimiter()` with the default parameters
(60-second window, 50 events). -/
def init : SocketRateLimiter := ⟨[], 60000, 50⟩

/-- `check(socketId)`: filter the key's timestamps down to those inside
the trailing window, deny if the filtered count already reached the cap,
otherwise append `now` and store the filtered window back. -/
def check (st : SocketRateLimiter) (socketId : String) (now : Nat) :
    Bool × SocketRateLimiter :=
  let timestamps := (jsGet st.requests socketId).getD []
  let validTimestamps := timestamps.filter (fun ts => now - ts < st.windowMs)
  if st.maxRequests ≤ validTimestamps.length then
    (false, st)
  else
    (true,
     { st with requests := jsSet st.requests socketId (validTimestamps ++ [now]) })

/-- `remove(socketId)` (run on disconnect). -/
def remove (st : SocketRateLimiter) (socketId : String) : SocketRateLimiter :=
  { st with requests := jsDelete st.requests socketId }

/-- Run the first `i` `check` calls for a fixed key, the `j`-th call at
time `t j`, starting from a freshly constructed limiter. -/
def runChecks (socketId : String) (t : Nat → Nat) : Nat → SocketRateLimiter
  | 0 => init
  | i + 1 => (check (runChecks socketId t i) socketId (t i)).2

/-- The boolean answer of the `(i+1)`-st `check` call. -/
def resultAt (socketId : String) (t : Nat → Nat) (i : Nat) : Bool :=
  (check (runChecks socketId t i) socketId (t i)).1

end SocketRateLimiter

/-- Inside one 60-second span, the window filter of `check` keeps every
stored timestamp. -/
theorem filter_window (t : Nat → Nat)
    (hmono : ∀ j, j ≤ 50 → ∀ i, i ≤ j → t i ≤ t j)
    (hspan : t 50 < t 0 + 60000) (n : Nat) (hn : n ≤ 50) :
    ((List.range n).map t).filter (fun ts => decide (t n - ts < 60000)) =
      (List.range n).map t := by
  apply List.filter_eq_self.mpr
  intro a ha
  rcases List.mem_map.mp ha with ⟨j, hj, rfl⟩
  have hj2 : j < n := List.mem_range.mp hj
  have h1 : t 0 ≤ t j := hmono j (by omega) 0 (Nat.zero_le j)
  have h2 : t n ≤ t 50 := hmono 50 le_rfl n hn
  simp only [decide_eq_true_eq]
  omega

/-- Closed form of the limiter state along the first 50 admitted calls:
the key holds exactly the times of the calls made so far. -/
theorem runChecks_closed (k : String) (t : Nat → Nat)
    (hmono : ∀ j, j ≤ 50 → ∀ i, i ≤ j → t i ≤ t j)
    (hspan : t 50 < t 0 + 60000) :
    ∀ i, i ≤ 50 → SocketRateLimiter.runChecks k t i =
      ⟨if i = 0 then [] else [(k, (List.range i).map t)], 60000, 50⟩ := by
  intro i
  induction i with
  | zero => intro _; rfl
  | succ n ih =>
      intro h
      have hn : n ≤ 50 := le_trans (Nat.le_succ n) h
      have hlt : n < 50 := h
      unfold SocketRateLimiter.runChecks
      rw [ih hn]
      by_cases h0 : n = 0
      · subst h0
        simp [SocketRateLimiter.check, jsGet, jsSet, List.range_succ]
      · rw [if_neg h0]
        have hnotfull : ¬ (50 ≤ ((List.range n).map t).length) := by
          simp only [List.length_map, List.length_range]
          omega
        simp [SocketRateLimiter.check, jsGet, jsSet,
          filter_window t hmono hspan n hn, hnotfull, List.range_succ]
        rw [if_neg (by omega : ¬ (50 ≤ n))]

/-- **C6.** For a fixed key, starting from a fresh limiter, with 51 calls
whose (monotone) times all lie within one trailing 60-second window, the
first 50 `check` calls are admitted, the 51st is denied (counting only
the timestamps already stored before the append), and a later call made
once the first timestamp has aged out of the window (60 s past `t 0`) is
admitted again. -/
theorem rate_limiter_sliding_window (k : String) (t : Nat → Nat)
    (hmono : ∀ j, j ≤ 50 → ∀ i, i ≤ j → t i ≤ t j)
    (hspan : t 50 < t 0 + 60000) :
    (∀ i, i < 50 → SocketRateLimiter.resultAt k t i = true) ∧
    SocketRateLimiter.resultAt k t 50 = false ∧
    (∀ T, t 0 + 60000 ≤ T →
      (SocketRateLimiter.check (SocketRateLimiter.runChecks k t 51) k T).1
        = true) := by
  have hrc := runChecks_closed k t hmono hspan
  have hstate50 : SocketRateLimiter.runChecks k t 50 =
      ⟨[(k, (List.range 50).map t)], 60000, 50⟩ := by
    rw [hrc 50 le_rfl]
    simp
  have hfull : (50 ≤ ((List.range 50).map t).length) := by
    simp only [List.length_map, List.length_range]
    exact le_rfl
  refine ⟨?_, ?_, ?_⟩
  · intro i hi
    unfold SocketRateLimiter.resultAt
    rw [hrc i (le_of_lt hi)]
    by_cases h0 : i = 0
    · subst h0
      simp [SocketRateLimiter.check, jsGet]
    · rw [if_neg h0]
      have hnotfull : ¬ (50 ≤ ((List.range i).map t).length) := by
        simp only [List.length_map, List.length_range]
        omega
      simp [SocketRateLimiter.check, jsGet,
        filter_window t hmono hspan i (le_of_lt hi), hnotfull]
      rw [if_neg (by omega : ¬ (50 ≤ i))]
  · unfold SocketRateLimiter.resultAt
    rw [hstate50]
    simp [SocketRateLimiter.check, jsGet,
      filter_window t hmono hspan 50 le_rfl, hfull]
  · intro T hT
    have h51 : SocketRateLimiter.runChecks k t 51 =
        ⟨[(k, (List.range 50).map t)], 60000, 50⟩ := by
      rw [show (51 : Nat) = 50 + 1 from rfl]
      unfold SocketRateLimiter.runChecks
      rw [hstate50]
      simp [SocketRateLimiter.check, jsGet,
        filter_window t hmono hspan 50 le_rfl, hfull]
    rw [h51]
    have hsplit : List.range 50 = 0 :: (List.range 49).map Nat.succ :=
      List.range_succ_eq_map 49
    have hlen : (((List.range 50).map t).filter
        (fun ts => decide (T - ts < 60000))).length < 50 := by
      rw [hsplit]
      simp only [List.map_cons, List.filter_cons]
      have hfalse : ¬ (T - t 0 < 60000) := by omega
      simp only [hfalse, decide_eq_true_eq, if_neg, decide_False]
      calc ((((List.range 49).map Nat.succ).map t).filter
              (fun ts => decide (T - ts < 60000))).length
          ≤ (((List.range 49).map Nat.succ).map t).length :=
            List.length_filter_le _ _
        _ = 49 := by simp
        _ < 50 := by omega
    have hnotfull : ¬ (50 ≤ (((List.range 50).map t).filter
        (fun ts => decide (T - ts < 60000))).length) := not_le.mpr hlen
    simp [SocketRateLimiter.check, jsGet, hnotfull]

/-- Witness for C6 at the concrete time sequence `t i = i` and key
`"sock"`: all 51 call times lie within one window, the hypotheses hold,
and the conclusions follow by the theorem. -/
theorem rate_limiter_sliding_window_witness :
    ((fun i : Nat => i) 50 < (fun i : Nat => i) 0 + 60000) ∧
    ((∀ i, i < 50 → SocketRateLimiter.resultAt "sock" (fun i => i) i = true) ∧
     SocketRateLimiter.resultAt "sock" (fun i => i) 50 = false ∧
     (∀ T, (fun i : Nat => i) 0 + 60000 ≤ T →
       (SocketRateLimiter.check
         (SocketRateLimiter.runChecks "sock" (fun i => i) 51) "sock" T).1
           = true)) :=
  ⟨by decide,
   rate_limiter_sliding_window "sock" (fun i => i)
     (fun j _ i hij => hij) (by decide)⟩

/-! ### Job Ledger (`dist/services/PrintQueueManager.js`) -/

/-- The `PrintQueueManager`'s `commands : Map<string, PrintCommand>`. -/
structure PrintQueueManager where
  commands : List (String × PrintCommand)
deriving DecidableEq

namespace PrintQueueManager

def emptyQueue : PrintQueueManager := ⟨[]⟩

/-- `maxHistorySize = 1000` ("Keep last 1000 commands"). -/
def maxHistorySize : Nat := 1000

/-- The descending-creation-time comparison used by `cleanup`'s
`sort((a, b) => b.createdAt.getTime() - a.createdAt.getTime())`. -/
def newerFirst (p q : String × PrintCommand) : Prop :=
  q.2.createdAt ≤ p.2.createdAt

instance : DecidableRel newerFirst := fun p q =>
  inferInstanceAs (Decidable (q.2.createdAt ≤ p.2.createdAt))

instance : IsTotal (String × PrintCommand) newerFirst :=
  ⟨fun p q => Nat.le_total q.2.createdAt p.2.createdAt⟩

instance : IsTrans (String × PrintCommand) newerFirst :=
  ⟨fun _ _ _ h1 h2 => Nat.le_trans h2 h1⟩

/-- `cleanup`: sort the entries by creation time descending and keep only
the first `maxHistorySize` of them. -/
def cleanup (st : PrintQueueManager) : PrintQueueManager :=
  ⟨(st.commands.insertionSort newerFirst).take maxHistorySize⟩

/-- `createCommand`: insert the new `pending` record, then compact
synchronously if the map has grown past the cap. -/
def createCommand (st : PrintQueueManager) (id restaurantId userId agentId
    labelData : String) (now : Nat) : PrintCommand × PrintQueueManager :=
  let command : PrintCommand :=
    { id := id
      restaurantId := restaurantId
      userId := userId
      agentId := agentId
      labelData := labelData
      status := PrintStatus.pending
      createdAt := now
      completedAt := none
      error := none }
  let commands := jsSet st.commands id command
  let st2 : PrintQueueManager :=
    if maxHistorySize < commands.length then cleanup ⟨commands⟩ else ⟨commands⟩
  (command, st2)

/-- `updateStatus`: no-op for an unknown id; otherwise overwrite the
status unconditionally, record the error text when one is given, and
stamp the completed time when the new status is terminal. -/
def updateStatus (st : PrintQueueManager) (commandId : String)
    (status : PrintStatus) (error : Option String) (now : Nat) :
    PrintQueueManager :=
  match jsGet st.commands commandId with
  | none => st
  | some command =>
      let command2 := { command with status := status }
      let command3 :=
        if strTruthy error then { command2 with error := error } else command2
      let command4 :=
        if status = PrintStatus.success ∨ status = PrintStatus.failed then
          { command3 with completedAt := some now }
        else command3
      ⟨jsSet st.commands commandId command4⟩

/-- `getCommand`. -/
def getCommand (st : PrintQueueManager) (commandId : String) :
    Option PrintCommand :=
  jsGet st.commands commandId

/-- `getStats`. -/
def getStats (st : PrintQueueManager) : Nat × Nat × Nat × Nat × Nat :=
  let commands := st.commands.map (fun p => p.2)
  (commands.length,
   (commands.filter (fun c => c.status = PrintStatus.pending)).length,
   (commands.filter (fun c => c.status = PrintStatus.printing)).length,
   (commands.filter (fun c => c.status = PrintStatus.success)).length,
   (commands.filter (fun c => c.status = PrintStatus.failed)).length)

end PrintQueueManager

/-- A Job Ledger operation issued by callers of the
`PrintQueueManager` singleton. -/
inductive LedgerOp
  | create (id restaurantId userId agentId labelData : String) (now : Nat)
  | update (id : String) (status : PrintStatus) (error : Option String)
      (now : Nat)

/-- Apply one ledger operation. -/
def applyLedgerOp (st : PrintQueueManager) : LedgerOp → PrintQueueManager
  | LedgerOp.create id rid uid aid label now =>
      (PrintQueueManager.createCommand st id rid uid aid label now).2
  | LedgerOp.update id status err now =>
      PrintQueueManager.updateStatus st id status err now

/-- Run a sequence of ledger operations from the empty ledger. -/
def runLedgerOps (ops : List LedgerOp) : PrintQueueManager :=
  ops.foldl applyLedgerOp PrintQueueManager.emptyQueue

/-! ### Claim C2: ledger status life-cycle -/

/-- Every entry of `jsSet l k v` is either the new binding's value or an
entry of `l`. -/
theorem mem_jsSet {β : Type} {l : List (String × β)} {k : String} {v : β}
    {p : String × β} (h : p ∈ jsSet l k v) : p = (k, v) ∨ p ∈ l := by
  unfold jsSet at h
  by_cases hc : l.any (fun p => p.1 = k)
  · rw [if_pos hc] at h
    rcases List.mem_map.mp h with ⟨q, hq, rfl⟩
    by_cases hk : q.1 = k
    · left
      simp [hk]
    · right
      simpa [hk] using hq
  · rw [if_neg hc] at h
    rcases List.mem_append.mp h with h | h
    · exact Or.inr h
    · exact Or.inl (List.mem_singleton.mp h)

/-- Ledger compaction only discards entries; it introduces none. -/
theorem mem_cleanup {st : PrintQueueManager} {p : String × PrintCommand}
    (h : p ∈ (PrintQueueManager.cleanup st).commands) : p ∈ st.commands := by
  unfold PrintQueueManager.cleanup at h
  have h2 : p ∈ st.commands.insertionSort PrintQueueManager.newerFirst :=
    List.take_subset _ _ h
  exact (List.perm_insertionSort PrintQueueManager.newerFirst st.commands).subset h2

/-- One ledger operation preserves «terminal status ⇒ completed time set». -/
theorem ledger_terminal_step (st : PrintQueueManager) (op : LedgerOp)
    (hinv : ∀ p ∈ st.commands,
      (p.2.status = PrintStatus.success ∨ p.2.status = PrintStatus.failed) →
        p.2.completedAt ≠ none) :
    ∀ p ∈ (applyLedgerOp st op).commands,
      (p.2.status = PrintStatus.success ∨ p.2.status = PrintStatus.failed) →
        p.2.completedAt ≠ none := by
  intro p hp hterm
  cases op with
  | create id rid uid aid label now =>
      simp only [applyLedgerOp, PrintQueueManager.createCommand] at hp
      have hp2 : p ∈ jsSet st.commands id
          { id := id, restaurantId := rid, userId := uid, agentId := aid,
            labelData := label, status := PrintStatus.pending,
            createdAt := now, completedAt := none, error := none } := by
        split at hp
        · exact mem_cleanup hp
        · exact hp
      rcases mem_jsSet hp2 with heq | hmem
      · subst heq
        rcases hterm with h | h <;> simp at h
      · exact hinv p hmem hterm
  | update id status err now =>
      simp only [applyLedgerOp, PrintQueueManager.updateStatus] at hp
      cases hget : jsGet st.commands id with
      | none =>
          rw [hget] at hp
          exact hinv p hp hterm
      | some command =>
          rw [hget] at hp
          rcases mem_jsSet hp with heq | hmem
          · subst heq
            by_cases hts : status = PrintStatus.success ∨
                status = PrintStatus.failed
            · simp only [if_pos hts]
              simp
            · exfalso
              simp only [if_neg hts] at hterm
              by_cases he : strTruthy err <;> simp [he] at hterm <;>
                exact hts hterm
          · exact hinv p hmem hterm

/-- **C2 (amended).** In every ledger state reachable by a sequence of
`createCommand`/`updateStatus` operations from the empty ledger, every
record whose status is terminal (`success` or `failed`) has its completed
time set.  (The converse of the claim fails, and status transitions are
not enforced to be monotonic: `updateStatus` overwrites the status
unconditionally and never clears the completed time — see the
counterexample.) -/
theorem ledger_terminal_has_completedAt (ops : List LedgerOp)
    (p : String × PrintCommand) (hp : p ∈ (runLedgerOps ops).commands)
    (hterm : p.2.status = PrintStatus.success ∨
      p.2.status = PrintStatus.failed) :
    p.2.completedAt ≠ none := by
  revert p
  have haux : ∀ (l : List LedgerOp) (st : PrintQueueManager),
      (∀ p ∈ st.commands,
        (p.2.status = PrintStatus.success ∨ p.2.status = PrintStatus.failed) →
          p.2.completedAt ≠ none) →
      ∀ p ∈ (l.foldl applyLedgerOp st).commands,
        (p.2.status = PrintStatus.success ∨ p.2.status = PrintStatus.failed) →
          p.2.completedAt ≠ none := by
    intro l
    induction l with
    | nil => intro st hinv; exact hinv
    | cons op rest ih =>
        intro st hinv
        exact ih (applyLedgerOp st op) (ledger_terminal_step st op hinv)
  intro p hp hterm
  exact haux ops PrintQueueManager.emptyQueue
    (by intro q hq; exact absurd hq (List.not_mem_nil q)) p hp hterm

/-- The record stored for job `"j1"` after a `create` at time 0 followed
by an `updateStatus success` at time 5. -/
def jobAfterSuccess : PrintCommand :=
  { id := "j1", restaurantId := "R", userId := "u", agentId := "a",
    labelData := "L", status := PrintStatus.success, createdAt := 0,
    completedAt := some 5, error := none }

/-- Witness for C2 (amended): after `create` then `updateStatus success`,
the stored record is terminal and its completed time is set. -/
theorem ledger_terminal_has_completedAt_witness :
    (("j1", jobAfterSuccess)
      ∈ (runLedgerOps
          [LedgerOp.create "j1" "R" "u" "a" "L" 0,
           LedgerOp.update "j1" PrintStatus.success none 5]).commands) ∧
    jobAfterSuccess.completedAt ≠ none :=
  ⟨by decide,
   ledger_terminal_has_completedAt
     [LedgerOp.create "j1" "R" "u" "a" "L" 0,
      LedgerOp.update "j1" PrintStatus.success none 5]
     ("j1", jobAfterSuccess)
     (by decide) (by decide)⟩

/-- Counterexample to C2 as stated: `create`, `updateStatus success`,
then `updateStatus pending` leaves the record with the non-terminal
status `pending` while its completed time is still set — the terminal
status was overwritten, the status stepped backward, and «completed time
set iff terminal» fails. -/
theorem ledger_status_monotonic_counterexample :
    ((PrintQueueManager.getCommand (runLedgerOps
        [LedgerOp.create "j1" "R" "u" "a" "L" 0,
         LedgerOp.update "j1" PrintStatus.success none 5,
         LedgerOp.update "j1" PrintStatus.pending none 6]) "j1").map
      (fun c => (c.status, c.completedAt))) =
      some (PrintStatus.pending, some 5) := by decide

/-! ### Claim C3: ledger capacity bound and retained set -/

/-- The arguments of one `createCommand` call. -/
structure CreateArgs where
  id : String
  restaurantId : String
  userId : String
  agentId : String
  labelData : String
  now : Nat
deriving DecidableEq

/-- The `pending` record `createCommand` builds from its arguments. -/
def mkCommand (a : CreateArgs) : PrintCommand :=
  { id := a.id, restaurantId := a.restaurantId, userId := a.userId,
    agentId := a.agentId, labelData := a.labelData,
    status := PrintStatus.pending, createdAt := a.now, completedAt := none,
    error := none }

/-- Run the first `n` `createCommand` calls, the `i`-th with arguments
`args i`, starting from the empty ledger. -/
def runCreates (args : Nat → CreateArgs) : Nat → PrintQueueManager
  | 0 => PrintQueueManager.emptyQueue
  | n + 1 =>
      (PrintQueueManager.createCommand (runCreates args n) (args n).id
        (args n).restaurantId (args n).userId (args n).agentId
        (args n).labelData (args n).now).2

/-- The map entry stored for the `i`-th created job. -/
def ledgerEntry (args : Nat → CreateArgs) (i : Nat) :
    String × PrintCommand :=
  ((args i).id, mkCommand (args i))

/-- `[s, s-1, ..., s-len+1]`: the indices of the `len` most recent
creations, newest first. -/
def descRange : Nat → Nat → List Nat
  | _, 0 => []
  | s, len + 1 => s :: descRange (s - 1) len

/-- The entries of the `min n cap` most recently created jobs among the
first `n`, newest first. -/
def recentEntries (args : Nat → CreateArgs) (n : Nat) :
    List (String × PrintCommand) :=
  (descRange (n - 1) (min n PrintQueueManager.maxHistorySize)).map
    (ledgerEntry args)

theorem descRange_length : ∀ (s len : Nat), (descRange s len).length = len
  | _, 0 => rfl
  | s, len + 1 => by
      simp [descRange, descRange_length (s - 1) len]

theorem mem_descRange_le {s len x : Nat} (h : x ∈ descRange s len) :
    x ≤ s := by
  induction len generalizing s with
  | zero => simp [descRange] at h
  | succ n ih =>
      rcases List.mem_cons.mp h with rfl | h2
      · exact le_rfl
      · exact le_trans (ih h2) (Nat.sub_le s 1)

theorem descRange_pairwise_gt :
    ∀ (s len : Nat), len ≤ s + 1 →
      (descRange s len).Pairwise (fun a b => b < a) := by
  intro s len
  induction len generalizing s with
  | zero => intro _; exact List.Pairwise.nil
  | succ n ih =>
      intro h
      refine List.Pairwise.cons ?_ (ih (s - 1) (by omega))
      intro x hx
      have hxle := mem_descRange_le hx
      cases n with
      | zero => simp [descRange] at hx
      | succ m =>
          have hs : 1 ≤ s := by omega
          omega

theorem descRange_append (s len : Nat) :
    descRange s (len + 1) = descRange s len ++ [s - len] := by
  induction len generalizing s with
  | zero => simp [descRange]
  | succ n ih =>
      calc descRange s (n + 2) = s :: descRange (s - 1) (n + 1) := rfl
        _ = s :: (descRange (s - 1) n ++ [s - 1 - n]) := by rw [ih]
        _ = descRange s (n + 1) ++ [s - (n + 1)] := by
              rw [show s - 1 - n = s - (n + 1) from by omega]
              rfl

/-- Two lists with the same elements, both sorted by a key descending,
and with duplicate-free keys, are equal. -/
theorem eq_of_perm_sorted_key {α : Type} (key : α → Nat) :
    ∀ (l1 l2 : List α), l1.Perm l2 →
      l1.Pairwise (fun a b => key b ≤ key a) →
      l2.Pairwise (fun a b => key b ≤ key a) →
      (l1.map key).Nodup → l1 = l2 := by
  intro l1
  induction l1 with
  | nil =>
      intro l2 hp _ _ _
      exact (hp.symm.eq_nil).symm
  | cons a t1 ih =>
      intro l2 hp hs1 hs2 hnd
      cases l2 with
      | nil => exact absurd hp.eq_nil (by simp)
      | cons b t2 =>
          have hs1a := List.pairwise_cons.mp hs1
          have hs2a := List.pairwise_cons.mp hs2
          have hnda : (∀ x ∈ t1, ¬ key x = key a) ∧ (t1.map key).Nodup := by
            simpa using hnd
          have hab : a = b := by
            have ha2 : a ∈ b :: t2 := hp.subset (List.mem_cons_self a t1)
            rcases List.mem_cons.mp ha2 with h | h
            · exact h
            · have h1 : key a ≤ key b := hs2a.1 a h
              have hb1 : b ∈ a :: t1 := hp.symm.subset (List.mem_cons_self b t2)
              rcases List.mem_cons.mp hb1 with h2 | h2
              · exact h2.symm
              · have h3 : key b ≤ key a := hs1a.1 b h2
                have hkey : key a = key b := Nat.le_antisymm h1 h3
                exact absurd hkey.symm (hnda.1 b h2)
          subst hab
          have hp2 : t1.Perm t2 := hp.cons_inv
          rw [ih t2 hp2 hs1a.2 hs2a.2 hnda.2]

/-- The ledger's descending sort is determined: if `l` is a permutation
of a list `m` already sorted newest-first with duplicate-free creation
times, the sort returns exactly `m`. -/
theorem insertionSort_newerFirst_eq (l m : List (String × PrintCommand))
    (hperm : l.Perm m)
    (hsorted : m.Pairwise PrintQueueManager.newerFirst)
    (hnodup : (m.map (fun p => p.2.createdAt)).Nodup) :
    List.insertionSort PrintQueueManager.newerFirst l = m := by
  apply eq_of_perm_sorted_key (fun p => p.2.createdAt)
  · exact (List.perm_insertionSort _ l).trans hperm
  · exact (List.sorted_insertionSort PrintQueueManager.newerFirst l).imp
      (fun h => h)
  · exact hsorted.imp (fun h => h)
  · have hkeys :
        ((List.insertionSort PrintQueueManager.newerFirst l).map
            (fun p => p.2.createdAt)).Perm
          (m.map (fun p => p.2.createdAt)) :=
      ((List.perm_insertionSort _ l).trans hperm).map _
    exact hkeys.nodup_iff.mpr hnodup

/-- Normal form of one `createCommand` call. -/
theorem createCommand_eq (st : PrintQueueManager) (a : CreateArgs) :
    PrintQueueManager.createCommand st a.id a.restaurantId a.userId
        a.agentId a.labelData a.now =
      (mkCommand a,
       if PrintQueueManager.maxHistorySize <
           (jsSet st.commands a.id (mkCommand a)).length then
         PrintQueueManager.cleanup ⟨jsSet st.commands a.id (mkCommand a)⟩
       else ⟨jsSet st.commands a.id (mkCommand a)⟩) := rfl

/-- The ledger never grows past the 1000-record cap: each `createCommand`
compacts synchronously when the insertion overflows. -/
theorem runCreates_length_le (args : Nat → CreateArgs) (n : Nat) :
    (runCreates args n).commands.length ≤ PrintQueueManager.maxHistorySize := by
  cases n with
  | zero =>
      simp [runCreates, PrintQueueManager.emptyQueue,
        PrintQueueManager.maxHistorySize]
  | succ n =>
      show ((PrintQueueManager.createCommand (runCreates args n) (args n).id
        (args n).restaurantId (args n).userId (args n).agentId
        (args n).labelData (args n).now).2).commands.length ≤ _
      rw [createCommand_eq]
      dsimp only
      split
      · simp only [PrintQueueManager.cleanup]
        rw [List.length_take]
        exact min_le_left _ _
      · dsimp only
        omega

/-- After `n` creations with distinct ids and strictly increasing
creation times, the ledger holds exactly the `min n 1000` most recently
created records. -/
theorem runCreates_perm (args : Nat → CreateArgs) :
    ∀ n, (∀ j, j < n → ∀ i, i < j → (args i).id ≠ (args j).id) →
      (∀ j, j < n → ∀ i, i < j → (args i).now < (args j).now) →
      (runCreates args n).commands.Perm (recentEntries args n) := by
  intro n
  induction n with
  | zero =>
      intro _ _
      simp [runCreates, PrintQueueManager.emptyQueue, recentEntries,
        descRange]
  | succ n ih =>
      intro hid hmono
      have hM : PrintQueueManager.maxHistorySize = 1000 := rfl
      have ihp := ih (fun j hj => hid j (Nat.lt_succ_of_lt hj))
        (fun j hj => hmono j (Nat.lt_succ_of_lt hj))
      -- the new id is fresh, so `Map.set` appends
      have hmemidx : ∀ p ∈ (runCreates args n).commands,
          ∃ i, i < n ∧ p = ledgerEntry args i := by
        intro p hp
        rcases List.mem_map.mp (ihp.subset hp) with ⟨i, hi, rfl⟩
        have hile : i ≤ n - 1 := mem_descRange_le hi
        have hpos : 0 < min n PrintQueueManager.maxHistorySize := by
          rw [← descRange_length (n - 1)
            (min n PrintQueueManager.maxHistorySize)]
          exact List.length_pos_of_mem hi
        have hn1 : 0 < n := (lt_min_iff.mp hpos).1
        exact ⟨i, by omega, rfl⟩
      have hfresh : ((runCreates args n).commands.any
          (fun p => p.1 = (args n).id)) = false := by
        rw [List.any_eq_false]
        intro p hp
        rcases hmemidx p hp with ⟨i, hin, rfl⟩
        simp only [ledgerEntry, decide_eq_true_eq]
        exact hid n (Nat.lt_succ_self n) i hin
      have hset : jsSet (runCreates args n).commands (args n).id
          (mkCommand (args n)) =
          (runCreates args n).commands ++ [ledgerEntry args n] := by
        unfold jsSet
        rw [hfresh]
        simp [ledgerEntry]
      have hperm1 : ((runCreates args n).commands ++ [ledgerEntry args n]).Perm
          (ledgerEntry args n :: recentEntries args n) :=
        (List.perm_append_singleton _ _).trans (ihp.cons _)
      have hbig : ledgerEntry args n :: recentEntries args n =
          (descRange n (min n PrintQueueManager.maxHistorySize + 1)).map
            (ledgerEntry args) := by
        rw [show descRange n (min n PrintQueueManager.maxHistorySize + 1) =
          n :: descRange (n - 1) (min n PrintQueueManager.maxHistorySize)
          from rfl]
        rfl
      have hlen : ((runCreates args n).commands ++
          [ledgerEntry args n]).length =
          min n PrintQueueManager.maxHistorySize + 1 := by
        rw [List.length_append, ihp.length_eq]
        simp [recentEntries, descRange_length]
      show ((PrintQueueManager.createCommand (runCreates args n) (args n).id
        (args n).restaurantId (args n).userId (args n).agentId
        (args n).labelData (args n).now).2).commands.Perm _
      rw [createCommand_eq]
      dsimp only
      rw [hset]
      by_cases hcap : n < 1000
      · -- no overflow: the insertion is kept as is
        have hmin : min n PrintQueueManager.maxHistorySize = n :=
          min_eq_left (by omega)
        rw [if_neg (by omega)]
        have htarget : recentEntries args (n + 1) =
            ledgerEntry args n :: recentEntries args n := by
          unfold recentEntries
          rw [show n + 1 - 1 = n from rfl]
          rw [show min (n + 1) PrintQueueManager.maxHistorySize =
            min n PrintQueueManager.maxHistorySize + 1 from by
              rw [hM]; omega]
          rw [show descRange n (min n PrintQueueManager.maxHistorySize + 1) =
            n :: descRange (n - 1) (min n PrintQueueManager.maxHistorySize)
            from rfl]
          rfl
        rw [htarget]
        exact hperm1
      · -- overflow: sort newest-first, keep the first 1000
        have hmin : min n PrintQueueManager.maxHistorySize = 1000 :=
          min_eq_right (by omega)
        rw [if_pos (by omega)]
        simp only [PrintQueueManager.cleanup]
        have hperm2 : ((runCreates args n).commands ++
            [ledgerEntry args n]).Perm
            ((descRange n 1001).map (ledgerEntry args)) := by
          rw [show (1001 : Nat) =
            min n PrintQueueManager.maxHistorySize + 1 from by omega]
          rw [← hbig]
          exact hperm1
        have hsorted : ((descRange n 1001).map (ledgerEntry args)).Pairwise
            PrintQueueManager.newerFirst := by
          apply List.pairwise_map.mpr
          apply (descRange_pairwise_gt n 1001 (by omega)).imp_of_mem
          intro a b ha _ hba
          have han : a ≤ n := mem_descRange_le ha
          show (ledgerEntry args b).2.createdAt ≤
            (ledgerEntry args a).2.createdAt
          simp only [ledgerEntry, mkCommand]
          exact le_of_lt (hmono a (by omega) b hba)
        have hnodup : (((descRange n 1001).map (ledgerEntry args)).map
            (fun p => p.2.createdAt)).Nodup := by
          rw [List.map_map]
          show ((descRange n 1001).map
            (fun i => (ledgerEntry args i).2.createdAt)).Nodup
          apply List.pairwise_map.mpr
          apply (descRange_pairwise_gt n 1001 (by omega)).imp_of_mem
          intro a b ha _ hba
          have han : a ≤ n := mem_descRange_le ha
          simp only [ledgerEntry, mkCommand]
          exact (Nat.ne_of_lt (hmono a (by omega) b hba)).symm
        rw [insertionSort_newerFirst_eq _ _ hperm2 hsorted hnodup]
        have hsplit : (descRange n 1001).map (ledgerEntry args) =
            (descRange n 1000).map (ledgerEntry args) ++
              [ledgerEntry args (n - 1000)] := by
          rw [show (1001 : Nat) = 1000 + 1 from rfl, descRange_append,
            List.map_append]
          rfl
        rw [hsplit]
        rw [List.take_left' (by simp [descRange_length, hM])]
        have htarget : recentEntries args (n + 1) =
            (descRange n 1000).map (ledgerEntry args) := by
          unfold recentEntries
          rw [show n + 1 - 1 = n from rfl]
          rw [show min (n + 1) PrintQueueManager.maxHistorySize = 1000 from by
            rw [hM]; omega]
        rw [htarget]

/-- **C3.** After any finite sequence of `createCommand` calls the ledger
never holds more than the 1000-record cap once the call returns
(compaction runs synchronously inside the inserting call); and when the
calls carry distinct job ids and strictly increasing creation times, the
retained entries are exactly the `min n 1000` most recently created
records. -/
theorem ledger_capacity_bound :
    (∀ (args : Nat → CreateArgs) (n : Nat),
      (runCreates args n).commands.length ≤
        PrintQueueManager.maxHistorySize) ∧
    (∀ (args : Nat → CreateArgs) (n : Nat),
      (∀ j, j < n → ∀ i, i < j → (args i).id ≠ (args j).id) →
      (∀ j, j < n → ∀ i, i < j → (args i).now < (args j).now) →
      (runCreates args n).commands.Perm (recentEntries args n)) :=
  ⟨runCreates_length_le, fun args n => runCreates_perm args n⟩

/-- Concrete creation sequence for the C3 witness: two jobs with distinct
ids and increasing creation times. -/
def capacityWitnessArgs : Nat → CreateArgs :=
  fun i =>
    if i = 0 then ⟨"job-a", "R", "u", "g", "L", 0⟩
    else ⟨"job-b", "R", "u", "g", "L", 1⟩

/-- Witness for C3 at the concrete two-job sequence: the hypotheses hold
and both conclusions follow by the theorem. -/
theorem ledger_capacity_bound_witness :
    (∀ j, j < 2 → ∀ i, i < j →
      (capacityWitnessArgs i).id ≠ (capacityWitnessArgs j).id) ∧
    (∀ j, j < 2 → ∀ i, i < j →
      (capacityWitnessArgs i).now < (capacityWitnessArgs j).now) ∧
    (runCreates capacityWitnessArgs 2).commands.length ≤
      PrintQueueManager.maxHistorySize ∧
    (runCreates capacityWitnessArgs 2).commands.Perm
      (recentEntries capacityWitnessArgs 2) :=
  ⟨by decide, by decide,
   ledger_capacity_bound.1 capacityWitnessArgs 2,
   ledger_capacity_bound.2 capacityWitnessArgs 2 (by decide) (by decide)⟩

/-! ### Dispatch Router: socket handlers (`dist/socket/handlers.js`) -/

/-- The per-connection `socket.data` fields the handlers read or write. -/
structure SocketData where
  agentId : Option String
  role : Option String
  restaurantId : Option String
  code : Option String
  userId : Option String
  agentTokenVerified : Bool
  verifiedRestaurantCode : Option String
  tokenId : Option String
deriving DecidableEq

/-- `socket.data` of a fresh connection (all fields undefined). -/
def SocketData.initial : SocketData :=
  ⟨none, none, none, none, none, false, none, none⟩

/-- Outcome of the connection-time agent-token gate. -/
inductive ConnOutcome
  | rejected (message : String) (code : String)
  | accepted (s : SocketData)
deriving DecidableEq

/-- The connection-time check of `initializeSocketHandlers`: when the
connection declares `clientType = 'agent'` **and** supplies a (truthy)
token, the token is verified; on failure an `authentication_error` is
emitted and the socket is disconnected; otherwise the connection
proceeds.  A connection without a truthy token skips the check. -/
def handleConnection (store : List TokenRow) (clientType : Option String)
    (token : Option String) : ConnOutcome :=
  if clientType = some "agent" ∧ strTruthy token = true then
    let v := verifyAgentToken store (token.getD "")
    if v.1.valid then
      ConnOutcome.accepted
        { SocketData.initial with
          agentTokenVerified := true,
          verifiedRestaurantCode := v.1.restaurantCode,
          tokenId := v.1.tokenId }
    else
      ConnOutcome.rejected ((v.1.error).getD "Токен агента недействителен")
        "INVALID_AGENT_TOKEN"
  else ConnOutcome.accepted SocketData.initial

/-- Payload of a `register_agent` event. -/
structure RegisterAgentData where
  code : String
  printerInfo : Option PrinterInfo
deriving DecidableEq

/-- What the `register_agent` handler emits back to the connection. -/
inductive RegOutcome
  | regError (message : String)
  | ack (agentId : String) (restaurantId : Option String)
      (code : Option String)
deriving DecidableEq

/-- The `register_agent` handler of `dist/socket/handlers.js`: the
token-bound code must match when the connection was token-verified; the
idempotent guard re-emits the stored identity when `socket.data.agentId`
is already (truthily) set; otherwise a fresh identity is allocated and
registered. -/
def registerAgentHandler (m : AgentManager) (s : SocketData)
    (data : RegisterAgentData) (freshId socketId : String)
    (ip : Option String) (now : Nat) :
    AgentManager × SocketData × RegOutcome :=
  let restaurantCode := (jsOr s.verifiedRestaurantCode (some data.code)).getD ""
  if s.agentTokenVerified = true ∧ some data.code ≠ s.verifiedRestaurantCode then
    (m, s, RegOutcome.regError "Код ресторана не совпадает с токеном агента")
  else if strTruthy s.agentId = true then
    (m, s, RegOutcome.ack (s.agentId.getD "") s.restaurantId s.code)
  else
    let res := AgentManager.registerDist m freshId socketId
      (some restaurantCode) none restaurantCode data.printerInfo "unknown"
      ip now
    (res.2,
     { s with
       agentId := some freshId, role := some "agent",
       restaurantId := some restaurantCode, code := some restaurantCode },
     RegOutcome.ack freshId (some restaurantCode) (some restaurantCode))

/-- Payload of a `register` event (`ClientRegistration`). -/
structure ClientRegistration where
  role : String
  userId : Option String
  restaurantId : Option String
  printerInfo : Option PrinterInfo
  version : Option String
deriving DecidableEq

/-- What the `register` handler reports via its callback. -/
inductive ClientRegOutcome
  | agentReg (agentId : String)
  | clientReg
deriving DecidableEq

/-- The `register` handler of `dist/socket/handlers.js`.  The `agent`
role allocates a fresh identity and registers it unconditionally — there
is no per-socket idempotency guard on this path. -/
def registerHandler (m : AgentManager) (s : SocketData)
    (authUserId authRestaurantId : Option String)
    (data : ClientRegistration) (freshId socketId : String)
    (ip : Option String) (now : Nat) :
    AgentManager × SocketData × ClientRegOutcome :=
  if data.role = "agent" then
    let code := (jsOr data.restaurantId (some "unknown")).getD "unknown"
    let res := AgentManager.registerDist m freshId socketId
      (jsOr data.restaurantId none) authUserId code data.printerInfo
      ((jsOr data.version (some "unknown")).getD "unknown") ip now
    (res.2,
     { s with
       agentId := some freshId, role := some "agent",
       restaurantId := data.restaurantId },
     ClientRegOutcome.agentReg freshId)
  else
    (m,
     { s with
       role := some (if data.role = "" then "web-client" else data.role),
       userId := authUserId,
       restaurantId := jsOr data.restaurantId authRestaurantId },
     ClientRegOutcome.clientReg)

/-- Payload of a `print-label` event (`PrintRequest`). -/
structure PrintRequest where
  targetAgentId : Option String
  labelData : String
  restaurantId : Option String
deriving DecidableEq

/-- What the `print-label` handler reports via its callback. -/
inductive PrintOutcome
  | failure (error : String)
  | dispatched (commandId targetSocketId targetAgentId : String)
deriving DecidableEq

/-- The `print-label` handler of `dist/socket/handlers.js`: rate-limit
check, room-key resolution, target resolution (explicit id, else first
`ready` agent of the room, else the first agent of the room), ledger
record creation, dispatch to the target's channel, advance to
`printing`. -/
def printLabelHandler (lim : SocketRateLimiter) (qm : PrintQueueManager)
    (am : AgentManager) (s : SocketData) (authUserId : Option String)
    (data : PrintRequest) (socketId freshCommandId : String) (now : Nat) :
    SocketRateLimiter × PrintQueueManager × PrintOutcome :=
  let chk := SocketRateLimiter.check lim socketId now
  if chk.1 = false then
    (chk.2, qm, PrintOutcome.failure "Rate limit exceeded. Please slow down.")
  else
    let rid? := jsOr data.restaurantId s.restaurantId
    if strTruthy rid? = false then
      (chk.2, qm, PrintOutcome.failure "Restaurant ID is required")
    else
      let rid := rid?.getD ""
      let dispatch := fun (targetAgent : ConnectedAgent) =>
        let cc := PrintQueueManager.createCommand qm freshCommandId rid
          ((jsOr s.userId authUserId).getD "unknown") targetAgent.id
          data.labelData now
        let qm2 := PrintQueueManager.updateStatus cc.2 freshCommandId
          PrintStatus.printing none now
        (chk.2, qm2,
         PrintOutcome.dispatched freshCommandId targetAgent.socketId
           targetAgent.id)
      if strTruthy data.targetAgentId = true then
        match AgentManager.getAgent am (data.targetAgentId.getD "") with
        | none =>
            (chk.2, qm, PrintOutcome.failure "Target agent not found or offline")
        | some targetAgent => dispatch targetAgent
      else
        let agents := AgentManager.getAgentsByRestaurant am rid
        match (agents.find? (fun a =>
            a.printerInfo.any (fun p => p.status = PrinterStatus.ready))).orElse
            (fun _ => agents.head?) with
        | none =>
            (chk.2, qm,
             PrintOutcome.failure "No online agents found for this restaurant")
        | some targetAgent => dispatch targetAgent

/-! ### Claim C10: `register` source vs compiled variant -/

/-- **C10 (amended).** For identical inputs the source and the compiled
`AgentManager.register` build records that agree on every field except
the pairing code: the compiled variant stores `(code || '').toUpperCase()`
where the source stores `code` verbatim; whenever the supplied code is
already its own uppercasing, the two variants agree completely. -/
theorem register_variants_agree_up_to_code_case (m : AgentManager)
    (agentId socketId : String) (restaurantId userId : Option String)
    (code : String) (printerInfo : Option PrinterInfo) (version : String)
    (ip : Option String) (now : Nat) :
    ((AgentManager.registerDist m agentId socketId restaurantId userId code
        printerInfo version ip now).1 =
      { (AgentManager.register m agentId socketId restaurantId userId code
          printerInfo version ip now).1 with code := jsToUpper code }) ∧
    ((AgentManager.register m agentId socketId restaurantId userId code
        printerInfo version ip now).1.code = code) ∧
    (jsToUpper code = code →
      AgentManager.registerDist m agentId socketId restaurantId userId code
          printerInfo version ip now =
        AgentManager.register m agentId socketId restaurantId userId code
          printerInfo version ip now) := by
  have hif : (if code = "" then "" else code) = code := by
    by_cases h : code = "" <;> simp [h]
  refine ⟨?_, rfl, ?_⟩
  · simp [AgentManager.registerDist, AgentManager.register, hif]
  · intro hup
    simp [AgentManager.registerDist, AgentManager.register, hif, hup]

/-- Witness for C10 (amended): at an uppercase code the two variants
produce identical results. -/
theorem register_variants_agree_witness :
    (jsToUpper "AB12CD34" = "AB12CD34") ∧
    AgentManager.registerDist AgentManager.empty "A1" "s1" (some "R") none
        "AB12CD34" none "1.0" none 0 =
      AgentManager.register AgentManager.empty "A1" "s1" (some "R") none
        "AB12CD34" none "1.0" none 0 :=
  ⟨by decide,
   (register_variants_agree_up_to_code_case AgentManager.empty "A1" "s1"
     (some "R") none "AB12CD34" none "1.0" none 0).2.2 (by decide)⟩

/-- Counterexample to C10 as stated: for the lowercase code `ab12cd34`
the source variant stores `ab12cd34` while the compiled variant stores
`AB12CD34`, so the stored pairing-code fields differ. -/
theorem register_code_case_counterexample :
    (AgentManager.register AgentManager.empty "A1" "s1" (some "R") none
        "ab12cd34" none "1.0" none 0).1.code = "ab12cd34" ∧
    (AgentManager.registerDist AgentManager.empty "A1" "s1" (some "R") none
        "ab12cd34" none "1.0" none 0).1.code = "AB12CD34" ∧
    (AgentManager.register AgentManager.empty "A1" "s1" (some "R") none
        "ab12cd34" none "1.0" none 0).1 ≠
      (AgentManager.registerDist AgentManager.empty "A1" "s1" (some "R")
        none "ab12cd34" none "1.0" none 0).1 := by
  refine ⟨rfl, by decide, by decide⟩

/-! ### Claim C5: registry uniqueness invariants -/

/-- An operation on the Connection Registry singleton. -/
inductive RegistryOp
  | reg (agentId socketId : String) (restaurantId userId : Option String)
      (code : String) (printerInfo : Option PrinterInfo) (version : String)
      (ip : Option String) (now : Nat)
  | regDist (agentId socketId : String) (restaurantId userId : Option String)
      (code : String) (printerInfo : Option PrinterInfo) (version : String)
      (ip : Option String) (now : Nat)
  | unregister (socketId : String)
  | touch (agentId : String) (now : Nat)
  | newPrinterInfo (agentId : String) (printerInfo : PrinterInfo) (now : Nat)
  | sweep (now : Nat)

/-- Apply one registry operation. -/
def applyRegistryOp (m : AgentManager) : RegistryOp → AgentManager
  | RegistryOp.reg a s r u c pi v ip now =>
      (AgentManager.register m a s r u c pi v ip now).2
  | RegistryOp.regDist a s r u c pi v ip now =>
      (AgentManager.registerDist m a s r u c pi v ip now).2
  | RegistryOp.unregister sid => AgentManager.unregisterBySocketId m sid
  | RegistryOp.touch a now => AgentManager.updateLastSeen m a now
  | RegistryOp.newPrinterInfo a pi now =>
      AgentManager.updatePrinterInfo m a pi now
  | RegistryOp.sweep now => AgentManager.cleanup m now

/-- Run a sequence of registry operations from the empty registry. -/
def runRegistryOps (ops : List RegistryOp) : AgentManager :=
  ops.foldl applyRegistryOp AgentManager.empty

/-- A key-preserving entrywise map keeps the key list unchanged. -/
theorem map_keys_eq {β : Type} (l : List (String × β))
    (F : String × β → String × β) (hF : ∀ p, (F p).1 = p.1) :
    (l.map F).map (fun p => p.1) = l.map (fun p => p.1) := by
  rw [List.map_map]
  apply List.map_congr_left
  intro p _
  exact hF p

/-- `Map.set` keeps the key list duplicate-free. -/
theorem jsSet_keys_nodup {β : Type} {l : List (String × β)} {k : String}
    {v : β} (hnd : (l.map (fun p => p.1)).Nodup) :
    ((jsSet l k v).map (fun p => p.1)).Nodup := by
  unfold jsSet
  by_cases hc : l.any (fun p => p.1 = k)
  · rw [if_pos hc]
    rw [map_keys_eq l _ (fun p => by by_cases h : p.1 = k <;> simp [h])]
    exact hnd
  · rw [if_neg hc]
    have hcf : l.any (fun p => p.1 = k) = false := Bool.eq_false_iff.mpr hc
    have hk : ∀ p ∈ l, ¬ (p.1 = k) := by
      intro p hp
      have := List.any_eq_false.mp hcf p hp
      simpa using this
    rw [List.map_append]
    rw [List.nodup_append]
    refine ⟨hnd, List.nodup_singleton k, ?_⟩
    intro a ha hb
    rcases List.mem_map.mp ha with ⟨p, hp, rfl⟩
    exact hk p hp (by simpa using hb)

/-- Filtering entries keeps the key list duplicate-free. -/
theorem filter_keys_nodup {β : Type} {l : List (String × β)}
    (f : String × β → Bool) (hnd : (l.map (fun p => p.1)).Nodup) :
    ((l.filter f).map (fun p => p.1)).Nodup :=
  hnd.sublist ((List.filter_sublist l).map (fun p => p.1))

/-- **C5 (amended).** In every registry state reachable by any sequence
of `AgentManager` operations from the empty registry, at most one record
holds any given identity id (the identity-key list is duplicate-free).
The per-channel half of the claim fails — see the counterexample: the
`register` event path has no per-socket guard, so one connection
registering twice yields two records with the same channel id. -/
theorem registry_unique_agent_ids (ops : List RegistryOp) :
    (((runRegistryOps ops).agents).map (fun p => p.1)).Nodup := by
  have hstep : ∀ (m : AgentManager) (op : RegistryOp),
      ((m.agents).map (fun p => p.1)).Nodup →
      (((applyRegistryOp m op).agents).map (fun p => p.1)).Nodup := by
    intro m op hnd
    cases op with
    | reg a s r u c pi v ip now =>
        exact jsSet_keys_nodup hnd
    | regDist a s r u c pi v ip now =>
        exact jsSet_keys_nodup hnd
    | unregister sid =>
        simp only [applyRegistryOp, AgentManager.unregisterBySocketId]
        cases hfind : m.agents.find? (fun p => p.2.socketId = sid) with
        | none => exact hnd
        | some p => exact filter_keys_nodup _ hnd
    | touch a now =>
        simp only [applyRegistryOp, AgentManager.updateLastSeen]
        rw [map_keys_eq m.agents _
          (fun p => by by_cases h : p.1 = a <;> simp [h])]
        exact hnd
    | newPrinterInfo a pi now =>
        simp only [applyRegistryOp, AgentManager.updatePrinterInfo]
        rw [map_keys_eq m.agents _
          (fun p => by by_cases h : p.1 = a <;> simp [h])]
        exact hnd
    | sweep now =>
        simp only [applyRegistryOp, AgentManager.cleanup,
          AgentManager.sweepLoop]
        rw [sweepLoop_eq_filter]
        exact filter_keys_nodup _ hnd
  have : ∀ (l : List RegistryOp) (m : AgentManager),
      ((m.agents).map (fun p => p.1)).Nodup →
      (((l.foldl applyRegistryOp m).agents).map (fun p => p.1)).Nodup := by
    intro l
    induction l with
    | nil => intro m hm; exact hm
    | cons op rest ih => intro m hm; exact ih _ (hstep m op hm)
  exact this ops AgentManager.empty (by simp [AgentManager.empty])

/-- Counterexample to C5 as stated: a connection that emits the `register`
event (agent role) twice — reachable router behaviour, since that path
has no idempotency guard — leaves two registry records carrying the same
channel (socket) id `sock-1`. -/
theorem registry_socket_uniqueness_counterexample :
    (((registerHandler
        (registerHandler AgentManager.empty SocketData.initial none none
          ⟨"agent", none, some "R1", none, none⟩ "uuid-1" "sock-1" none 0).1
        (registerHandler AgentManager.empty SocketData.initial none none
          ⟨"agent", none, some "R1", none, none⟩ "uuid-1" "sock-1" none 0).2.1
        none none ⟨"agent", none, some "R1", none, none⟩ "uuid-2" "sock-1"
        none 1).1.agents.filter
      (fun p => p.2.socketId = "sock-1")).length) = 2 := by decide

/-! ### Claim C4: connection-time agent-token gate -/

/-- **C4 (amended).** For every new connection that declares itself an
agent **and supplies a (truthy) token**, the connection either validates
the token (and proceeds with the verification data stored on the
connection) or is rejected with a typed `authentication_error` carrying
code `INVALID_AGENT_TOKEN` and forcibly disconnected.  An agent-declaring
connection that supplies no token skips the gate entirely — see the
counterexample. -/
theorem agent_token_gate (store : List TokenRow)
    (clientType token : Option String) (hct : clientType = some "agent")
    (htok : strTruthy token = true) :
    ((verifyAgentToken store (token.getD "")).1.valid = true →
      handleConnection store clientType token =
        ConnOutcome.accepted
          { SocketData.initial with
            agentTokenVerified := true,
            verifiedRestaurantCode :=
              (verifyAgentToken store (token.getD "")).1.restaurantCode,
            tokenId := (verifyAgentToken store (token.getD "")).1.tokenId }) ∧
    ((verifyAgentToken store (token.getD "")).1.valid = false →
      handleConnection store clientType token =
        ConnOutcome.rejected
          (((verifyAgentToken store (token.getD "")).1.error).getD
            "Токен агента недействителен")
          "INVALID_AGENT_TOKEN") := by
  subst hct
  constructor
  · intro hv
    unfold handleConnection
    rw [if_pos ⟨rfl, htok⟩]
    simp [hv]
  · intro hv
    unfold handleConnection
    rw [if_pos ⟨rfl, htok⟩]
    simp [hv]

/-- Witness for C4 (amended): a declared agent carrying the malformed
token `"bad"` is rejected with the typed `INVALID_AGENT_TOKEN` error. -/
theorem agent_token_gate_witness :
    strTruthy (some "bad") = true ∧
    (verifyAgentToken [] ((some "bad").getD "")).1.valid = false ∧
    handleConnection [] (some "agent") (some "bad") =
      ConnOutcome.rejected
        (((verifyAgentToken [] ((some "bad").getD "")).1.error).getD
          "Токен агента недействителен")
        "INVALID_AGENT_TOKEN" :=
  ⟨by decide, by decide,
   (agent_token_gate [] (some "agent") (some "bad") rfl (by decide)).2
     (by decide)⟩

/-- Counterexample to C4 as stated: a connection declaring
`clientType = 'agent'` but supplying no token is accepted and stays open
with `agentTokenVerified` still false — no validation happened and no
`authentication_error` was emitted. -/
theorem agent_without_token_not_gated_counterexample :
    handleConnection [] (some "agent") none =
      ConnOutcome.accepted SocketData.initial ∧
    SocketData.initial.agentTokenVerified = false :=
  ⟨by decide, rfl⟩

/-! ### Claim C1: idempotent `register_agent` -/

/-- A truthy optional string is `some` of its own default read. -/
theorem strTruthy_some {o : Option String} (h : strTruthy o = true) :
    o = some (o.getD "") := by
  cases o with
  | none => simp [strTruthy] at h
  | some s => rfl

/-- **C1.** Once a `register_agent` event has been acknowledged for a
connection, any further `register_agent` event on that connection leaves
the Connection Registry unchanged (no new record), and any
acknowledgement it emits carries the same agent id, restaurant id and
pairing code as the first one.  (The allocated id is a UUID, hence
nonempty.) -/
theorem register_agent_idempotent (m0 : AgentManager) (s0 : SocketData)
    (d1 d2 : RegisterAgentData) (u1 u2 socketId : String)
    (ip : Option String) (t1 t2 : Nat) (m1 : AgentManager)
    (s1 : SocketData) (a : String) (r c : Option String) (ha : a ≠ "")
    (h1 : registerAgentHandler m0 s0 d1 u1 socketId ip t1 =
      (m1, s1, RegOutcome.ack a r c)) :
    (registerAgentHandler m1 s1 d2 u2 socketId ip t2).1 = m1 ∧
    ∀ a2 r2 c2,
      (registerAgentHandler m1 s1 d2 u2 socketId ip t2).2.2 =
        RegOutcome.ack a2 r2 c2 → a2 = a ∧ r2 = r ∧ c2 = c := by
  have hs1 : s1.agentId = some a ∧ s1.restaurantId = r ∧ s1.code = c := by
    simp only [registerAgentHandler] at h1
    split_ifs at h1 with hA hB
    · simp at h1
    · simp only [Prod.mk.injEq, RegOutcome.ack.injEq] at h1
      obtain ⟨hm, hs, haa, hr, hc⟩ := h1
      subst hs
      refine ⟨?_, hr, hc⟩
      rw [strTruthy_some hB, haa]
    · simp only [Prod.mk.injEq, RegOutcome.ack.injEq] at h1
      obtain ⟨hm, hs, haa, hr, hc⟩ := h1
      subst hs
      exact ⟨by rw [haa], hr, hc⟩
  obtain ⟨hsa, hsr, hsc⟩ := hs1
  have hstruthy : strTruthy s1.agentId = true := by
    rw [hsa]
    simpa [strTruthy] using ha
  simp only [registerAgentHandler]
  by_cases hA2 : s1.agentTokenVerified = true ∧
      some d2.code ≠ s1.verifiedRestaurantCode
  · rw [if_pos hA2]
    refine ⟨rfl, ?_⟩
    intro a2 r2 c2 h
    simp at h
  · rw [if_neg hA2, if_pos hstruthy]
    refine ⟨rfl, ?_⟩
    intro a2 r2 c2 h
    simp only [RegOutcome.ack.injEq] at h
    obtain ⟨h1', h2', h3'⟩ := h
    refine ⟨?_, ?_, ?_⟩
    · rw [← h1', hsa]
      rfl
    · rw [← h2', hsr]
    · rw [← h3', hsc]

/-- Witness for C1: a concrete first registration (fresh connection,
code `AB12CD34`) followed by a retry with a different fresh UUID — the
registry is untouched and the re-emitted acknowledgement repeats the
original identity. -/
theorem register_agent_idempotent_witness :
    ("uuid-1" : String) ≠ "" ∧
    (registerAgentHandler AgentManager.empty SocketData.initial
        ⟨"AB12CD34", none⟩ "uuid-1" "s" none 0 =
      ((registerAgentHandler AgentManager.empty SocketData.initial
          ⟨"AB12CD34", none⟩ "uuid-1" "s" none 0).1,
       (registerAgentHandler AgentManager.empty SocketData.initial
          ⟨"AB12CD34", none⟩ "uuid-1" "s" none 0).2.1,
       RegOutcome.ack "uuid-1" (some "AB12CD34") (some "AB12CD34"))) ∧
    ((registerAgentHandler
        (registerAgentHandler AgentManager.empty SocketData.initial
          ⟨"AB12CD34", none⟩ "uuid-1" "s" none 0).1
        (registerAgentHandler AgentManager.empty SocketData.initial
          ⟨"AB12CD34", none⟩ "uuid-1" "s" none 0).2.1
        ⟨"AB12CD34", none⟩ "uuid-2" "s" none 1).1 =
      (registerAgentHandler AgentManager.empty SocketData.initial
        ⟨"AB12CD34", none⟩ "uuid-1" "s" none 0).1) ∧
    ∀ a2 r2 c2,
      (registerAgentHandler
        (registerAgentHandler AgentManager.empty SocketData.initial
          ⟨"AB12CD34", none⟩ "uuid-1" "s" none 0).1
        (registerAgentHandler AgentManager.empty SocketData.initial
          ⟨"AB12CD34", none⟩ "uuid-1" "s" none 0).2.1
        ⟨"AB12CD34", none⟩ "uuid-2" "s" none 1).2.2 =
        RegOutcome.ack a2 r2 c2 →
      a2 = "uuid-1" ∧ r2 = some "AB12CD34" ∧ c2 = some "AB12CD34" :=
  ⟨by decide, by decide,
   (register_agent_idempotent AgentManager.empty SocketData.initial
     ⟨"AB12CD34", none⟩ ⟨"AB12CD34", none⟩ "uuid-1" "uuid-2" "s" none 0 1
     (registerAgentHandler AgentManager.empty SocketData.initial
       ⟨"AB12CD34", none⟩ "uuid-1" "s" none 0).1
     (registerAgentHandler AgentManager.empty SocketData.initial
       ⟨"AB12CD34", none⟩ "uuid-1" "s" none 0).2.1
     "uuid-1" (some "AB12CD34") (some "AB12CD34") (by decide)
     (by decide)).1,
   (register_agent_idempotent AgentManager.empty SocketData.initial
     ⟨"AB12CD34", none⟩ ⟨"AB12CD34", none⟩ "uuid-1" "uuid-2" "s" none 0 1
     (registerAgentHandler AgentManager.empty SocketData.initial
       ⟨"AB12CD34", none⟩ "uuid-1" "s" none 0).1
     (registerAgentHandler AgentManager.empty SocketData.initial
       ⟨"AB12CD34", none⟩ "uuid-1" "s" none 0).2.1
     "uuid-1" (some "AB12CD34") (some "AB12CD34") (by decide)
     (by decide)).2⟩

/-! ### Claim C8: print-label target resolution -/

/-- **C8.** For a job submission that passes the rate limiter and
resolves a room key: with a (truthy) explicit target id, the job is
dispatched to that agent exactly when the id resolves in the registry,
and the typed `Target agent not found or offline` failure is returned
otherwise; with no explicit target, the chosen target is the first agent
of the room whose device status is `ready`, else the first agent of the
room, and the typed `No online agents found for this restaurant` failure
is returned exactly when the room has no agents. -/
theorem print_label_target_resolution (lim : SocketRateLimiter)
    (qm : PrintQueueManager) (am : AgentManager) (s : SocketData)
    (authUserId : Option String) (data : PrintRequest)
    (socketId freshCommandId : String) (now : Nat) (rid : String)
    (hchk : (SocketRateLimiter.check lim socketId now).1 = true)
    (hrid : jsOr data.restaurantId s.restaurantId = some rid)
    (hridne : rid ≠ "") :
    (strTruthy data.targetAgentId = true →
      (∀ ag, AgentManager.getAgent am (data.targetAgentId.getD "") = some ag →
        (printLabelHandler lim qm am s authUserId data socketId
          freshCommandId now).2.2 =
          PrintOutcome.dispatched freshCommandId ag.socketId ag.id) ∧
      (AgentManager.getAgent am (data.targetAgentId.getD "") = none →
        (printLabelHandler lim qm am s authUserId data socketId
          freshCommandId now).2.2 =
          PrintOutcome.failure "Target agent not found or offline")) ∧
    (strTruthy data.targetAgentId = false →
      ((printLabelHandler lim qm am s authUserId data socketId
          freshCommandId now).2.2 =
        PrintOutcome.failure "No online agents found for this restaurant" ↔
        AgentManager.getAgentsByRestaurant am rid = []) ∧
      (∀ ag,
        ((AgentManager.getAgentsByRestaurant am rid).find? (fun a =>
            a.printerInfo.any (fun p =>
              p.status = PrinterStatus.ready))).orElse
          (fun _ => (AgentManager.getAgentsByRestaurant am rid).head?) =
            some ag →
        (printLabelHandler lim qm am s authUserId data socketId
          freshCommandId now).2.2 =
          PrintOutcome.dispatched freshCommandId ag.socketId ag.id)) := by
  have hr : strTruthy (some rid) = true := by
    simpa [strTruthy] using hridne
  have heq : (printLabelHandler lim qm am s authUserId data socketId
      freshCommandId now).2.2 =
      (if strTruthy data.targetAgentId = true then
        match AgentManager.getAgent am (data.targetAgentId.getD "") with
        | none => PrintOutcome.failure "Target agent not found or offline"
        | some ag =>
            PrintOutcome.dispatched freshCommandId ag.socketId ag.id
      else
        match ((AgentManager.getAgentsByRestaurant am rid).find? (fun a =>
            a.printerInfo.any (fun p =>
              p.status = PrinterStatus.ready))).orElse
          (fun _ => (AgentManager.getAgentsByRestaurant am rid).head?) with
        | none =>
            PrintOutcome.failure "No online agents found for this restaurant"
        | some ag =>
            PrintOutcome.dispatched freshCommandId ag.socketId ag.id) := by
    unfold printLabelHandler
    simp only [hchk, hrid, hr]
    simp only [Bool.true_eq_false, if_false, Option.getD_some]
    by_cases ht : strTruthy data.targetAgentId = true
    · rw [if_pos ht, if_pos ht]
      cases AgentManager.getAgent am (data.targetAgentId.getD "") <;> rfl
    · rw [if_neg ht, if_neg ht]
      cases ((AgentManager.getAgentsByRestaurant am rid).find? (fun a =>
          a.printerInfo.any (fun p =>
            p.status = PrinterStatus.ready))).orElse
        (fun _ => (AgentManager.getAgentsByRestaurant am rid).head?) <;> rfl
  constructor
  · intro ht
    constructor
    · intro ag hag
      rw [heq, if_pos ht, hag]
    · intro hag
      rw [heq, if_pos ht, hag]
  · intro hf
    have hf2 : ¬ (strTruthy data.targetAgentId = true) := by
      rw [hf]
      exact Bool.false_ne_true
    constructor
    · constructor
      · intro hfail
        rw [heq, if_neg hf2] at hfail
        cases hsel : ((AgentManager.getAgentsByRestaurant am rid).find?
            (fun a => a.printerInfo.any (fun p =>
              p.status = PrinterStatus.ready))).orElse
            (fun _ => (AgentManager.getAgentsByRestaurant am rid).head?) with
        | some ag =>
            rw [hsel] at hfail
            simp at hfail
        | none =>
            cases hfind : (AgentManager.getAgentsByRestaurant am rid).find?
                (fun a => a.printerInfo.any (fun p =>
                  p.status = PrinterStatus.ready)) with
            | some x =>
                rw [hfind] at hsel
                simp [Option.orElse] at hsel
            | none =>
                rw [hfind] at hsel
                simp only [Option.orElse] at hsel
                cases hAg : AgentManager.getAgentsByRestaurant am rid with
                | nil => rfl
                | cons x xs =>
                    rw [hAg] at hsel
                    simp at hsel
      · intro hempty
        rw [heq, if_neg hf2, hempty]
        rfl
    · intro ag hsel
      rw [heq, if_neg hf2, hsel]

/-- A one-agent registry for the C8 witness. -/
def demoAgent : ConnectedAgent :=
  ⟨"agent-1", "as-1", some "R", none, "R", none, 0, 0, "1.0", none, none⟩

def demoRegistry : AgentManager := ⟨[("agent-1", demoAgent)]⟩

/-- Witness for C8: in a room with a single (non-`ready`) agent, a
submission without explicit target passes the limiter, resolves the room
`R`, and is dispatched to that first agent of the room. -/
theorem print_label_target_resolution_witness :
    (printLabelHandler SocketRateLimiter.init PrintQueueManager.emptyQueue
        demoRegistry SocketData.initial none ⟨none, "L", some "R"⟩ "sock"
        "cmd-1" 5).2.2 =
      PrintOutcome.dispatched "cmd-1" "as-1" "agent-1" := by
  have h := (print_label_target_resolution SocketRateLimiter.init
    PrintQueueManager.emptyQueue demoRegistry SocketData.initial none
    ⟨none, "L", some "R"⟩ "sock" "cmd-1" 5 "R" (by decide) (by decide)
    (by decide)).2 (by decide)
  exact h.2 demoAgent (by decide)
